import Mathlib

/-!
# Verification of the boreth state-sync and consensus core

Shallow embedding, in Lean 4, of the state-sync / consensus-validation logic
of the boreth repository:

* `crates/bor/src/heimdall/event.rs` — event records and their ordering;
* `crates/bor/src/heimdall/client.rs` — the blocking heimdall HTTP client;
* `src/lib.rs` — the root-crate (async, paginating) heimdall client;
* `crates/bor/src/config.rs` — `BorConfig::sprint_number` / `is_sprint_start`;
* `crates/bor/src/heimdall/genesis_contract_client/state_receiver.rs` — the
  state-receiver contract codec;
* `crates/node/src/executor/system_call.rs` — `SystemCaller`;
* `crates/node/src/executor/executor.rs` — `BorBlockExecutor::execute_block`;
* `crates/node/src/consensus/consensus.rs` — `BorConsensus` validation.

Machine integers (`u64`) are modelled as `Nat`; all the operations under
study only compare, reduce modulo, or look integers up, so no overflow
wrapping is observable in the modelled paths (the one `u64` subtraction,
`timestamp - delay`, is noted at its definition).  Addresses and hashes are
modelled as `Nat`, byte strings as `List Nat`.  Fallible Rust code returns
`Except`; a Rust `panic!`/`todo!()` reached on a modelled path is an
`Option.none` outcome.
-/

namespace Boreth

deriving instance DecidableEq for Except

/-! ## Data model (crates/bor/src/heimdall/event.rs) -/

/-- `EventRecord`: an immutable fact relayed from the checkpoint layer.
Fields in declaration order of the Rust struct. -/
structure EventRecord where
  id : Nat
  contractAddress : Nat
  data : List Nat
  txHash : Nat
  logIndex : Nat
  chainId : String
deriving Repr, DecidableEq

/-- `EventRecordWithTime`: wraps an `EventRecord` with the checkpoint
observation time (modelled as POSIX seconds). -/
structure EventRecordWithTime where
  eventRecord : EventRecord
  time : Nat
deriving Repr, DecidableEq

/-- The `Ord` impl for `EventRecordWithTime` (event.rs lines 33-37):
`self.event_record.id.cmp(&other.event_record.id)` — comparison is by the
wrapped record's `id` only, never by `time`. -/
def EventRecordWithTime.cmp (a b : EventRecordWithTime) : Ordering :=
  compare a.eventRecord.id b.eventRecord.id

/-- The (non-strict) order induced by `EventRecordWithTime.cmp`, used by
`Vec::sort`. -/
def eventLe (a b : EventRecordWithTime) : Prop :=
  a.eventRecord.id ≤ b.eventRecord.id

instance : DecidableRel eventLe := fun a b =>
  inferInstanceAs (Decidable (a.eventRecord.id ≤ b.eventRecord.id))

instance : IsTotal EventRecordWithTime eventLe :=
  ⟨fun a b => Nat.le_total a.eventRecord.id b.eventRecord.id⟩

instance : IsTrans EventRecordWithTime eventLe :=
  ⟨fun _ _ _ h1 h2 => Nat.le_trans h1 h2⟩

/-- `event_records.sort()`: a stable sort by the `Ord` impl above.  `Vec::sort`
is a stable sort driven by `cmp`; it is modelled by the (stable) insertion
sort over `eventLe`. -/
def sortEvents (l : List EventRecordWithTime) : List EventRecordWithTime :=
  l.insertionSort eventLe

/-! ## Errors (crates/bor/src/heimdall/error.rs and src/lib.rs) -/

/-- `HeimdallError` variants (union of error.rs and the root-crate lib.rs;
payloads reduced to what the modelled code inspects). -/
inductive HeimdallError where
  | requestError
  | urlError
  | jsonError
  | unsuccessfulResponse (status : Nat)
  | noResponse
  | packError
  | unpackError
  | systemTimeError
  | solDecodeError (msg : String)
  | evmError
  | invalidStateSyncData
deriving Repr, DecidableEq

/-! ## The checkpoint-layer HTTP surface

A request to `clerk/event-record/list` is answered by the external heimdall
service; what the two Rust clients distinguish about the answer is: a
transport failure, HTTP 204, any other non-2xx status, or a 2xx body parsed
into `StateSyncEventsResponse { result: Option<Vec<EventRecordWithTime>> }`.
A server is modelled as a function from the requested `from-id` to such a
response (the other query parameters, `to-time` and `limit`, are fixed per
call site). -/

inductive HeimdallResponse where
  /-- the `send()` (or body read) itself fails: `reqwest::Error` -/
  | requestFailure
  /-- HTTP 204 -/
  | noContent
  /-- any other non-2xx status -/
  | unsuccessful (status : Nat)
  /-- 2xx, parsed `result` field (`none` = absent/null) -/
  | success (result : Option (List EventRecordWithTime))
deriving Repr, DecidableEq

/-- `STATE_FETCH_LIMIT` (both clients). -/
def STATE_FETCH_LIMIT : Nat := 50

/-- `HeimdallClient::fetch_state_sync_events`
(crates/bor/src/heimdall/client.rs lines 53-79).  Issues a single request
with the given `from-id` and `to-time`; HTTP 204 and an absent `result` are
errors here (`NoResponse`), and no pagination is performed — the sorted
single page is returned. -/
def HeimdallClient.fetchStateSyncEvents (server : Nat → HeimdallResponse)
    (fromId : Nat) (toTime : Nat) : Except HeimdallError (List EventRecordWithTime) :=
  let _ := toTime
  match server fromId with
  | .requestFailure => .error .requestError
  | .noContent => .error .noResponse
  | .unsuccessful s => .error (.unsuccessfulResponse s)
  | .success none => .error .noResponse
  | .success (some eventRecords) => .ok (sortEvents eventRecords)

/-- Loop body of the root-crate `HeimdallClient::fetch_state_sync_events`
(src/lib.rs lines 99-146).  The Rust `loop` advances `from_id` by
`STATE_FETCH_LIMIT` after every full page and is therefore not structurally
terminating (a server could answer full pages forever); the recursion is
made total with an explicit `fuel` bound, `none` standing for a run that
exceeds it.  The first returned component is the list of `from-id` values of
the requests actually issued, in order. -/
def fetchStateSyncEventsGo (server : Nat → HeimdallResponse) :
    Nat → Nat → List EventRecordWithTime → List Nat →
    Option (List Nat × Except HeimdallError (List EventRecordWithTime))
  | 0, _, _, _ => none
  | fuel + 1, fromId, acc, reqs =>
    let reqs1 := reqs ++ [fromId]
    match server fromId with
    | .requestFailure => some (reqs1, .error .requestError)
    | .noContent => some (reqs1, .ok (sortEvents acc))
    | .unsuccessful s => some (reqs1, .error (.unsuccessfulResponse s))
    | .success none => some (reqs1, .ok (sortEvents acc))
    | .success (some results) =>
      if results.isEmpty then some (reqs1, .ok (sortEvents acc))
      else if results.length < STATE_FETCH_LIMIT then
        some (reqs1, .ok (sortEvents (acc ++ results)))
      else
        fetchStateSyncEventsGo server fuel (fromId + STATE_FETCH_LIMIT)
          (acc ++ results) reqs1

/-- Root-crate `fetch_state_sync_events` (src/lib.rs): the loop started with
an empty accumulator. -/
def libFetchStateSyncEvents (server : Nat → HeimdallResponse) (fuel : Nat)
    (fromId : Nat) :
    Option (List Nat × Except HeimdallError (List EventRecordWithTime)) :=
  fetchStateSyncEventsGo server fuel fromId [] []

/-- The events carried by one server response: the parsed `result` page, or
nothing for 204/absent/failure responses. -/
def pageEvents : HeimdallResponse → List EventRecordWithTime
  | .success (some l) => l
  | _ => []

/-! ## Schedule lookup (crates/bor/src/config.rs)

`BorConfig.sprint` is a `BTreeMap<u64, u64>`; its iterator yields entries in
ascending key order.  The map is modelled as the association list produced
by that iterator, so "the table is sorted ascending by activation block" is
the hypothesis `(t.map Prod.fst).Pairwise (· < ·)` where it matters. -/

/-- `BorConfig::sprint_number` (config.rs lines 85-99): scan the table in
iteration order, keep the value of every entry whose key is ≤ the queried
block (the accumulator starts at 0), and fail when the accumulator is still
0 at the end. -/
def sprintNumber (sprint : List (Nat × Nat)) (blockNumber : Nat) :
    Except String Nat :=
  let s := sprint.foldl (fun acc kv => if blockNumber ≥ kv.1 then kv.2 else acc) 0
  if s = 0 then .error "Sprint not found for block" else .ok s

/-- `BorConfig::is_sprint_start` (config.rs lines 67-83).  When
`sprint_number` fails the Rust code panics (`panic!("Sprint not found for
block: {}")`), modelled as `none`. -/
def isSprintStart (sprint : List (Nat × Nat)) (blockNumber : Nat) : Option Bool :=
  match sprintNumber sprint blockNumber with
  | .ok n => some (decide (blockNumber % n = 0))
  | .error _ => none

/-! ## State-receiver contract codec
(crates/bor/src/heimdall/genesis_contract_client.rs and
genesis_contract_client/state_receiver.rs)

The concrete ABI byte strings are produced by the external `alloy_sol_types`
library; calldata is embedded symbolically, one constructor per contract
entry point, carrying the decoded arguments (the encoding is injective, so
nothing observable by the modelled code is lost). -/

/-- ABI calldata sent to the state-receiver contract. -/
inductive CallData where
  /-- `lastStateId()` — the no-argument read call built by
  `GenesisContractClient::last_state_id`. -/
  | lastStateId
  /-- `commitState(uint256 syncTime, bytes recordBytes)` — built by
  `encode_state_sync_data`; `recordBytes` is the RLP encoding of the event
  record, carried here as the record itself. -/
  | commitState (syncTime : Nat) (record : EventRecord)
deriving Repr, DecidableEq

/-- `GenesisContractClient` (addresses only; the struct holds no other
state). -/
structure GenesisContractClient where
  validatorContract : Nat
  stateReceiverContract : Nat
  systemAddress : Nat
deriving Repr, DecidableEq

/-- `GenesisContractClient::decode_last_state_id`: ABI-decode a single
`uint256` return value (32 big-endian bytes) and convert it to `u64`,
failing with `SolDecodeError` when the return data has the wrong shape or
the value overflows `u64`. -/
def decodeLastStateId (data : List Nat) : Except HeimdallError Nat :=
  if data.length = 32 then
    let v := data.foldl (fun acc b => acc * 256 + b) 0
    if v < 2 ^ 64 then .ok v
    else .error (.solDecodeError "Failed to decode last state id")
  else .error (.solDecodeError "type check failed")

/-- `GenesisContractClient::encode_state_sync_data`: `sync_time` is the
checkpoint observation time as POSIX seconds (`duration_since(UNIX_EPOCH)`
cannot fail with `time : Nat`), `recordBytes` the encoded wrapped record. -/
def encodeStateSyncData (e : EventRecordWithTime) : Except HeimdallError CallData :=
  .ok (.commitState e.time e.eventRecord)

/-! ## The EVM surface consumed by the system caller
(crates/node/src/executor/system_call.rs)

The external executor exposes `transact_system_call` (read-only: the
resulting state is not committed by `last_state_sync_event_id`) and
`transact_commit` (committing).  Both are modelled as opaque functions on an
abstract EVM state `σ`; `Option.none` models the `Err(e)` outcome of the
call itself. -/

/-- `revm` `ExecutionResult`, reduced to what the system caller matches on:
`Success { output }` versus everything else (`Revert`, `Halt`). -/
inductive ExecutionResult where
  | success (output : List Nat)
  | revert
  | halt
deriving Repr, DecidableEq

/-- Whether an execution result is the `Success` variant. -/
def ExecutionResult.isSuccess : ExecutionResult → Bool
  | .success _ => true
  | _ => false

/-- `TxEnv` as filled in by `SystemCaller::get_state_sync_tx`
(system_call.rs lines 135-159); fields not read by the model
(`access_list`, blob fields, ...) are their defaults and omitted. -/
structure TxEnvM where
  caller : Nat
  gasLimit : Nat
  gasPrice : Nat
  toAddress : Nat
  value : Nat
  data : CallData
  nonce : Nat
deriving Repr, DecidableEq

/-- The EVM handle as seen by `SystemCaller`: the block environment plus the
two transaction primitives. -/
structure EvmModel (σ : Type) where
  /-- `evm.block().number` -/
  number : Nat
  /-- `evm.block().timestamp` -/
  timestamp : Nat
  /-- `evm.transact_system_call(caller, contract, data)` — read-only -/
  transactSystemCall : σ → Nat → Nat → CallData → Option ExecutionResult
  /-- `evm.transact_commit(tx)` — committing; on success the new state -/
  transactCommit : σ → TxEnvM → Option (ExecutionResult × σ)

/-- `SystemCaller::get_state_sync_tx`: a zero-fee legacy call from the
system address to the state-receiver contract with gas limit
`u64::MAX / 2`. -/
def getStateSyncTx (gc : GenesisContractClient) (input : CallData) : TxEnvM :=
  { caller := gc.systemAddress
    gasLimit := (2 ^ 64 - 1) / 2
    gasPrice := 0
    toAddress := gc.stateReceiverContract
    value := 0
    data := input
    nonce := 0 }

/-- `SystemCaller::last_state_sync_event_id` (system_call.rs lines 95-132):
read the on-chain cursor with a read-only `lastStateId()` system call from
the system address to the state-receiver contract, decode the `uint256`
return on success, and fail with `EVMError` on a call error or a
non-success result. -/
def lastStateSyncEventId {σ : Type} (gc : GenesisContractClient)
    (evm : EvmModel σ) (s : σ) : Except HeimdallError Nat :=
  let data := CallData.lastStateId
  match evm.transactSystemCall s gc.systemAddress gc.stateReceiverContract data with
  | none => .error .evmError
  | some (.success output) => decodeLastStateId output
  | some _ => .error .evmError

/-- The event-replay loop of `apply_state_sync_contract_call`
(system_call.rs lines 65-89): for each event in order, encode a
`commitState` call, execute it with `transact_commit`, and require a
`Success` result — a call error is `InvalidStateSyncData`, a non-success
result is `EVMError`, and either stops the loop at once.  The first
component is the list of events whose transaction was submitted, in
order. -/
def replayEvents {σ : Type} (gc : GenesisContractClient) (evm : EvmModel σ) :
    σ → List EventRecordWithTime →
    List EventRecordWithTime × Except HeimdallError σ
  | s, [] => ([], .ok s)
  | s, e :: rest =>
    match encodeStateSyncData e with
    | .error err => ([], .error err)
    | .ok data =>
      match evm.transactCommit s (getStateSyncTx gc data) with
      | none => ([e], .error .invalidStateSyncData)
      | some (r, s1) =>
        if r.isSuccess then
          (e :: (replayEvents gc evm s1 rest).1, (replayEvents gc evm s1 rest).2)
        else ([e], .error .evmError)

/-- The record of one `apply_state_sync_contract_call` run. -/
structure StateSyncRun (σ : Type) where
  /-- the `(from_id, to_time)` arguments of every
  `fetch_state_sync_events` invocation, in order -/
  fetchCalls : List (Nat × Nat)
  /-- the events whose `commitState` transaction was submitted, in order -/
  executed : List EventRecordWithTime
  result : Except HeimdallError σ
deriving Repr

/-- `SystemCaller::apply_state_sync_contract_call` (system_call.rs lines
38-92): read the cursor, set `from_id = last_state_id`, compute `to_time`
(the gating fork check `is_spurious_dragon_active_at_block` — marked "dummy"
in the source — and the `calculate_state_delay` stub, whose body is
`todo!()`, are abstract parameters; `timestamp - delay` is `u64`
subtraction, truncated here as on any reachable input the delay does not
exceed the timestamp), fetch events through the crates/bor
`HeimdallClient`, and replay them. -/
def applyStateSyncContractCall {σ : Type} (gc : GenesisContractClient)
    (server : Nat → HeimdallResponse)
    (spuriousDragonActiveAtBlock : Nat → Bool)
    (calculateStateDelay : Nat → Nat)
    (evm : EvmModel σ) (s : σ) : StateSyncRun σ :=
  match lastStateSyncEventId gc evm s with
  | .error e => ⟨[], [], .error e⟩
  | .ok lastStateId =>
    let fromId := lastStateId
    let toTime :=
      if spuriousDragonActiveAtBlock evm.number then
        evm.timestamp - calculateStateDelay evm.number
      else evm.timestamp
    match HeimdallClient.fetchStateSyncEvents server fromId toTime with
    | .error e => ⟨[(fromId, toTime)], [], .error e⟩
    | .ok events =>
      ⟨[(fromId, toTime)], (replayEvents gc evm s events).1,
        (replayEvents gc evm s events).2⟩

/-! ## Block execution (crates/node/src/executor/executor.rs) -/

/-- One observable action of `BorBlockExecutor::execute_block`. -/
inductive BlockAction (Tx : Type) where
  /-- `self.execute_transaction(tx)` for an ordinary transaction -/
  | txExec (t : Tx)
  /-- `self.system_caller.check_and_apply_commit_span(..)` -/
  | commitSpan
  /-- `self.system_caller.apply_state_sync_contract_call(..)` -/
  | stateSync
deriving Repr, DecidableEq

/-- Whether an action is the state-sync system call. -/
def isStateSyncAction {Tx : Type} : BlockAction Tx → Bool
  | .stateSync => true
  | _ => false

/-- Block-level execution errors distinguished by the model. -/
inductive BlockExecError where
  /-- an ordinary transaction failed (`BlockExecutionError`) -/
  | txFailed
  /-- the `panic!` inside `is_sprint_start` when the sprint table has no
  applicable entry -/
  | sprintPanic
  /-- `InternalBlockExecutionError::other(e)` wrapping a `HeimdallError` -/
  | internal (e : HeimdallError)
deriving Repr, DecidableEq

/-- The `for tx in transactions { self.execute_transaction(tx)?; }` loop:
each transaction is executed in order against the evolving state; the first
failure aborts the loop.  `execute_transaction` itself (gas bookkeeping,
receipt building) is behind the external `BlockExecutor` surface and is the
abstract step `txStep`. -/
def runTxs {σ Tx : Type} (txStep : σ → Tx → Option σ) :
    σ → List Tx → List (BlockAction Tx) × Except BlockExecError σ
  | s, [] => ([], .ok s)
  | s, t :: ts =>
    match txStep s t with
    | none => ([.txExec t], .error .txFailed)
    | some s1 =>
      (.txExec t :: (runTxs txStep s1 ts).1, (runTxs txStep s1 ts).2)

/-- `BorBlockExecutor::execute_block` (executor.rs lines 213-241): apply the
(no-op) pre-execution changes, execute every ordinary transaction in order,
then — exactly when `is_sprint_start(block_number)` holds — run the
commit-span system call followed by the state-sync system call, each
failure becoming an `InternalBlockExecutionError`.  `check_and_apply_commit_span`
is an unimplemented stub in the source (`todo!()`, left open by the spec's
§9); it is the abstract fallible step `commitSpanStep`.  `stateSyncStep`
stands for `apply_state_sync_contract_call` on the same EVM.  The first
component is the trace of actions performed. -/
def executeBlock {σ Tx : Type} (sprint : List (Nat × Nat)) (blockNumber : Nat)
    (txStep : σ → Tx → Option σ)
    (commitSpanStep : σ → Except HeimdallError σ)
    (stateSyncStep : σ → Except HeimdallError σ)
    (s : σ) (txs : List Tx) : List (BlockAction Tx) × Except BlockExecError σ :=
  let tr := (runTxs txStep s txs).1
  match (runTxs txStep s txs).2 with
  | .error e => (tr, .error e)
  | .ok s1 =>
    match isSprintStart sprint blockNumber with
    | none => (tr, .error .sprintPanic)
    | some false => (tr, .ok s1)
    | some true =>
      match commitSpanStep s1 with
      | .error e => (tr ++ [.commitSpan], .error (.internal e))
      | .ok s2 =>
        match stateSyncStep s2 with
        | .error e => (tr ++ [.commitSpan, .stateSync], .error (.internal e))
        | .ok s3 => (tr ++ [.commitSpan, .stateSync], .ok s3)

/-! ## Consensus validation (crates/node/src/consensus/consensus.rs) -/

/-- The header fields read by `BorConsensus`. -/
structure HeaderM where
  number : Nat
  timestamp : Nat
  extraData : List Nat
  mixHash : Option Nat
  ommersHash : Nat
  difficulty : Nat
  gasLimit : Nat
  gasUsed : Nat
  withdrawalsRoot : Option Nat
  transactionsRoot : Nat
deriving Repr, DecidableEq

/-- `ConsensusError`, reduced to the variants the modelled code produces. -/
inductive ConsensusError where
  | other (reason : String)
  | blockGasUsed (got expected : Nat)
  | bodyTransactionRootDiff (got expected : Nat)
  | parentBlockNumberMismatch (parentBlockNumber blockNumber : Nat)
  /-- the `format!`-built gas limit message, carrying its two values -/
  | invalidGasLimit (haveGas maxCap : Nat)
deriving Repr, DecidableEq

/-- A receipt as read by `validate_block_post_execution` (only
`cumulative_gas_used` is consulted). -/
structure ReceiptM where
  cumulativeGasUsed : Nat
deriving Repr, DecidableEq

/-- `keccak256` of the empty byte string — the value
`alloy_primitives::keccak256(&[])` computes, used by the source's uncle-hash
check. -/
def KECCAK256_EMPTY_BYTES : Nat :=
  0xc5d2460186f7233c927e7db2dcc703c0e500b653ca82273b7bfad8045d85a470

/-- `keccak256` of the RLP encoding of the empty list (the single byte
`0xc0`) — the canonical empty-ommers-list hash (`EMPTY_OMMER_ROOT_HASH`)
carried by every ommerless Ethereum-family header. -/
def KECCAK256_RLP_EMPTY_LIST : Nat :=
  0x1dcc4de8dec75d7aab85b567b6ccd41ad312451b948a7413f0a142fd40d49347

/-- `BorConsensus::validate_block_post_execution` (consensus.rs lines
89-112): the cumulative gas used is the last receipt's
`cumulative_gas_used`, or 0 when there are no receipts, and must equal the
header's `gas_used`. -/
def validateBlockPostExecution (header : HeaderM) (receipts : List ReceiptM) :
    Except ConsensusError Unit :=
  let cumulativeGasUsed := (receipts.getLast?.map ReceiptM.cumulativeGasUsed).getD 0
  if header.gasUsed ≠ cumulativeGasUsed then
    .error (.blockGasUsed cumulativeGasUsed header.gasUsed)
  else .ok ()

/-- `BorConsensus::validate_block_pre_execution` (consensus.rs lines
147-218).  Parameters that the source draws from outside `src/`:
`currentTime` is the wall clock (`SystemTime::now`); `extraVanityLen`,
`extraSealLen` and `validatorRecordLen` are the `EXTRA_VANITY_LENGTH`,
`EXTRA_SEAL_LENGTH` and `VALIDATOR_HEADER_BYTES_LENGTH` constants, whose
defining file (`consensus/constants.rs`) is not part of the sources —
modelled from the spec: the extra-data layout constants are fixed
parameters.  `validatorBytes` is the result of `get_validator_bytes`, an
unimplemented stub (`todo!()`) — modelled from the spec: the validator bytes
extracted from the header's extra data are taken as given.  A `none` result
models the `panic!` reachable through `is_sprint_start`.  The checks run in
source order and fail fast. -/
def validateBlockPreExecution (sprint : List (Nat × Nat)) (currentTime : Nat)
    (extraVanityLen extraSealLen validatorRecordLen : Nat)
    (validatorBytes : List Nat) (header : HeaderM) :
    Option (Except ConsensusError Unit) :=
  if header.timestamp > currentTime then
    some (.error (.other "block is from the future"))
  else if header.extraData.length < extraVanityLen then
    some (.error (.other "missing vanity in extra data"))
  else if header.extraData.length < extraVanityLen + extraSealLen then
    some (.error (.other "missing signature in extra data"))
  else
    match isSprintStart sprint (header.number + 1) with
    | none => none
    | some isSprintEnd =>
      let signersBytes := validatorBytes.length
      if ¬isSprintEnd ∧ signersBytes ≠ 0 then
        some (.error (.other "extra validators not allowed at non sprint end"))
      else if isSprintEnd ∧ signersBytes % validatorRecordLen ≠ 0 then
        some (.error (.other "invalid span validators"))
      else if header.mixHash.isSome then
        some (.error (.other "non zero mix digest"))
      else if header.ommersHash ≠ KECCAK256_EMPTY_BYTES then
        some (.error (.other "invalid uncle hash"))
      else if header.number > 0 ∧ header.difficulty = 0 then
        some (.error (.other "invalid difficulty"))
      else if header.gasLimit > 2 ^ 63 - 1 then
        some (.error (.invalidGasLimit header.gasLimit (2 ^ 63 - 1)))
      else if header.withdrawalsRoot.isSome then
        some (.error (.other "unexpected withdrawals"))
      else some (.ok ())

/-! ## Concrete fixtures for witnesses and counterexamples -/

/-- An event with the given id and the given observation time, all other
fields fixed. -/
def mkEvT (i t : Nat) : EventRecordWithTime :=
  ⟨⟨i, 0, [], 0, 0, "137"⟩, t⟩

/-- An event with the given id, observed at time 0. -/
def mkEv (i : Nat) : EventRecordWithTime := mkEvT i 0

/-- A full page: exactly `STATE_FETCH_LIMIT` events, ids 1..50. -/
def fullPage : List EventRecordWithTime :=
  (List.range STATE_FETCH_LIMIT).map (fun i => mkEv (i + 1))

/-- A server holding 51 events: ids 1..50 on the first page (a full page)
and id 51 on the page starting at `from-id = 51`. -/
def srvPaged : Nat → HeimdallResponse := fun f =>
  if f = 1 then .success (some fullPage)
  else if f = 51 then .success (some [mkEv 51])
  else .success none

/-- A server that always answers HTTP 204. -/
def srv204 : Nat → HeimdallResponse := fun _ => .noContent

/-- A server that always answers 2xx with an absent (`null`) `result`. -/
def srvNone : Nat → HeimdallResponse := fun _ => .success none

/-- A server that always answers 2xx with an empty `result` list. -/
def srvEmpty : Nat → HeimdallResponse := fun _ => .success (some [])

/-- A server whose first page (at `from-id = 1`) holds the unsorted ids
`[5, 3, 4]`, matching the spec's ordering example. -/
def srvC5 : Nat → HeimdallResponse := fun f =>
  if f = 1 then .success (some [mkEv 5, mkEv 3, mkEv 4]) else .success none

/-- A genesis contract client with distinct concrete addresses. -/
def gcX : GenesisContractClient := ⟨1, 2, 3⟩

/-- An EVM whose `lastStateId()` read returns the `uint256` 5 (32 big-endian
bytes) for the system-call shape the code issues, and on which no
committing transaction is needed. -/
def evmC1 : EvmModel Unit :=
  { number := 0
    timestamp := 100
    transactSystemCall := fun _ caller target data =>
      if caller = 3 ∧ target = 2 ∧ data = .lastStateId then
        some (.success (List.replicate 31 0 ++ [5]))
      else none
    transactCommit := fun _ _ => none }

/-- An EVM (state: number of committed events) on which the `commitState`
transaction for the event with id 11 reverts and every other `commitState`
transaction succeeds. -/
def evmC8 : EvmModel Nat :=
  { number := 64
    timestamp := 100
    transactSystemCall := fun _ _ _ _ => none
    transactCommit := fun s tx =>
      match tx.data with
      | .commitState _ record =>
        if record.id = 11 then some (.revert, s) else some (.success [], s + 1)
      | _ => none }

/-- A header that passes every pre-execution check before the uncle-hash
check (at sprint table `{0 ↦ 64}`, wall clock 100, vanity 32, seal 65,
record size 40, no validator bytes) and carries the canonical
empty-ommers-list hash. -/
def hdrCanon : HeaderM :=
  { number := 5
    timestamp := 0
    extraData := List.replicate 97 0
    mixHash := none
    ommersHash := KECCAK256_RLP_EMPTY_LIST
    difficulty := 1
    gasLimit := 1000
    gasUsed := 0
    withdrawalsRoot := none
    transactionsRoot := 0 }

/-- The same header as `hdrCanon` but carrying the keccak-of-empty-bytes
value the source compares against. -/
def hdrKEmpty : HeaderM :=
  { hdrCanon with ommersHash := KECCAK256_EMPTY_BYTES }

/-! ## Helper lemmas -/

/-- The sorted output of `sortEvents` is pairwise `eventLe`-ordered. -/
theorem sortEvents_pairwise (l : List EventRecordWithTime) :
    (sortEvents l).Pairwise eventLe :=
  List.sorted_insertionSort eventLe l

/-- `sortEvents` permutes its input. -/
theorem sortEvents_perm (l : List EventRecordWithTime) :
    (sortEvents l).Perm l :=
  List.perm_insertionSort eventLe l

/-- If `sprint_number` produces a value, that value is nonzero: the `Ok`
branch is guarded by the `sprint_number == 0` check. -/
theorem sprintNumber_ok_ne_zero (t : List (Nat × Nat)) (b v : Nat)
    (h : sprintNumber t b = .ok v) : v ≠ 0 := by
  unfold sprintNumber at h
  by_cases hz : (t.foldl (fun acc kv => if b ≥ kv.1 then kv.2 else acc) 0) = 0
  · simp [hz] at h
  · simp only [hz, if_false, if_neg hz, Except.ok.injEq] at h
    omega

/-- A list whose `getLast?` is `some g` contains `g`. -/
theorem getLast?_some_mem {α : Type} {l : List α} {g : α}
    (h : l.getLast? = some g) : g ∈ l := by
  obtain ⟨hne, hg⟩ := List.mem_getLast?_eq_getLast (Option.mem_def.mpr h)
  rw [hg]
  exact List.getLast_mem hne

/-- The scan in `sprint_number` keeps the value of the last qualifying entry
in iteration order (or the initial accumulator when none qualifies). -/
theorem sprint_foldl_eq_getLast_filter (b : Nat) :
    ∀ (t : List (Nat × Nat)) (a : Nat),
      t.foldl (fun acc kv => if b ≥ kv.1 then kv.2 else acc) a =
        (match (t.filter fun kv => decide (kv.1 ≤ b)).getLast? with
         | some kv => kv.2
         | none => a) := by
  intro t
  induction t with
  | nil => intro a; simp
  | cons kv rest ih =>
    intro a
    by_cases h : kv.1 ≤ b
    · have hfc : (kv :: rest).filter (fun kv => decide (kv.1 ≤ b)) =
          kv :: rest.filter (fun kv => decide (kv.1 ≤ b)) := by
        simp [List.filter_cons, h]
      rw [List.foldl_cons, if_pos h, ih kv.2, hfc]
      cases hrest : rest.filter fun kv => decide (kv.1 ≤ b) with
      | nil => simp
      | cons x xs =>
        rw [List.getLast?_cons_cons]
        obtain ⟨g, hg⟩ : ∃ g, (x :: xs).getLast? = some g :=
          ⟨(x :: xs).getLast (by simp), List.getLast?_eq_getLast_of_ne_nil (by simp)⟩
        rw [hg]
    · have hb : ¬ b ≥ kv.1 := h
      have hfc : (kv :: rest).filter (fun kv => decide (kv.1 ≤ b)) =
          rest.filter (fun kv => decide (kv.1 ≤ b)) := by
        simp [List.filter_cons, h]
      rw [List.foldl_cons, if_neg hb, ih a, hfc]

/-- In a list whose keys are pairwise strictly increasing, every member's
key is at most the key of the last element. -/
theorem pairwise_key_le_getLast (l : List (Nat × Nat))
    (hs : (l.map Prod.fst).Pairwise (· < ·)) :
    ∀ x ∈ l, ∀ g, l.getLast? = some g → x.1 ≤ g.1 := by
  induction l with
  | nil => intro x hx; cases hx
  | cons y ys ih =>
    intro x hx g hg
    cases ys with
    | nil =>
      simp at hg hx
      simp [hx, ← hg]
    | cons z zs =>
      rw [List.getLast?_cons_cons] at hg
      have hmem : g ∈ z :: zs := getLast?_some_mem hg
      rcases List.mem_cons.mp hx with hxy | hxtail
      · subst hxy
        have hlt : ∀ k ∈ (z :: zs).map Prod.fst, x.1 < k := by
          have := (List.pairwise_cons.mp hs).1
          simpa using this
        exact le_of_lt (hlt g.1 (List.mem_map.mpr ⟨g, hmem, rfl⟩))
      · exact ih (List.pairwise_cons.mp hs).2 x hxtail g hg

/-- The trace of the ordinary-transaction loop consists of `txExec` actions
only. -/
theorem runTxs_trace_txExec {σ Tx : Type} (txStep : σ → Tx → Option σ) :
    ∀ (s : σ) (txs : List Tx),
      ∃ us : List Tx, (runTxs txStep s txs).1 = us.map BlockAction.txExec := by
  intro s txs
  induction txs generalizing s with
  | nil => exact ⟨[], rfl⟩
  | cons t ts ih =>
    cases h : txStep s t with
    | none => exact ⟨[t], by simp [runTxs, h]⟩
    | some s1 =>
      obtain ⟨us, hus⟩ := ih s1
      exact ⟨t :: us, by simp [runTxs, h, hus]⟩

/-- Characterization of a successful run of the root-crate pagination loop:
the returned events are the sort of the accumulator joined with every page
returned by the requests actually issued. -/
theorem fetchGo_ok_eq_sorted_pages (server : Nat → HeimdallResponse) :
    ∀ (fuel fromId : Nat) (acc : List EventRecordWithTime) (reqs0 reqs : List Nat)
      (out : List EventRecordWithTime),
      fetchStateSyncEventsGo server fuel fromId acc reqs0 = some (reqs, .ok out) →
      ∃ newReqs, reqs = reqs0 ++ newReqs ∧
        out = sortEvents (acc ++ (newReqs.map fun f => pageEvents (server f)).flatten) := by
  intro fuel
  induction fuel with
  | zero => intro fromId acc reqs0 reqs out h; simp [fetchStateSyncEventsGo] at h
  | succ fuel ih =>
    intro fromId acc reqs0 reqs out h
    rw [fetchStateSyncEventsGo] at h
    cases hsrv : server fromId with
    | requestFailure => rw [hsrv] at h; simp at h
    | noContent =>
      rw [hsrv] at h
      simp only [Option.some.injEq, Prod.mk.injEq, Except.ok.injEq] at h
      exact ⟨[fromId], h.1.symm, by simp [← h.2, pageEvents, hsrv]⟩
    | unsuccessful st => rw [hsrv] at h; simp at h
    | success result =>
      cases result with
      | none =>
        rw [hsrv] at h
        simp only [Option.some.injEq, Prod.mk.injEq, Except.ok.injEq] at h
        exact ⟨[fromId], h.1.symm, by simp [← h.2, pageEvents, hsrv]⟩
      | some results =>
        rw [hsrv] at h
        simp only at h
        by_cases hemp : results.isEmpty
        · rw [if_pos hemp] at h
          simp only [Option.some.injEq, Prod.mk.injEq, Except.ok.injEq] at h
          have hres : results = [] := List.isEmpty_iff.mp hemp
          refine ⟨[fromId], h.1.symm, ?_⟩
          simp [← h.2, pageEvents, hsrv, hres]
        · rw [if_neg hemp] at h
          by_cases hlen : results.length < STATE_FETCH_LIMIT
          · rw [if_pos hlen] at h
            simp only [Option.some.injEq, Prod.mk.injEq, Except.ok.injEq] at h
            refine ⟨[fromId], h.1.symm, ?_⟩
            simp [← h.2, pageEvents, hsrv]
          · rw [if_neg hlen] at h
            obtain ⟨newReqs, hreqs, hout⟩ :=
              ih (fromId + STATE_FETCH_LIMIT) (acc ++ results) (reqs0 ++ [fromId])
                reqs out h
            refine ⟨fromId :: newReqs, by simpa using hreqs, ?_⟩
            simp [hout, pageEvents, hsrv]

/-! ## Claim theorems -/

/-- C1: `apply_state_sync_contract_call` first reads the on-chain cursor
with the read-only `lastStateId` system call — here the cursor is 5 — but
then invokes `fetch_state_sync_events` with `from_id = 5`, the cursor value
itself, not `cursor + 1 = 6` as the claim states. -/
theorem apply_state_sync_fetches_from_cursor_not_cursor_plus_one :
    lastStateSyncEventId gcX evmC1 () = .ok 5 ∧
    (applyStateSyncContractCall gcX srvEmpty (fun _ => false) (fun _ => 0)
        evmC1 ()).fetchCalls = [(5, 100)] ∧
    ((5 : Nat), (100 : Nat)) ≠ (5 + 1, 100) := by
  exact ⟨by decide, by decide, by decide⟩

/-- C3: on HTTP 204 and on an absent `result`, the crates/bor
`fetch_state_sync_events` returns `Err(NoResponse)` — not an empty event
list — while the root-crate implementation returns `Ok([])` as the claim
states (an empty `result` list yields `Ok([])` in both). -/
theorem fetch_state_sync_events_no_data_divergence :
    HeimdallClient.fetchStateSyncEvents srv204 1 100 = .error .noResponse ∧
    HeimdallClient.fetchStateSyncEvents srvNone 1 100 = .error .noResponse ∧
    HeimdallClient.fetchStateSyncEvents srvEmpty 1 100 = .ok [] ∧
    libFetchStateSyncEvents srv204 2 1 = some ([1], .ok []) ∧
    libFetchStateSyncEvents srvNone 2 1 = some ([1], .ok []) ∧
    libFetchStateSyncEvents srvEmpty 2 1 = some ([1], .ok []) := by
  exact ⟨rfl, rfl, rfl, rfl, rfl, rfl⟩

/-- C4: on a server holding 51 events (a full first page of
`STATE_FETCH_LIMIT = 50`, then one more), the crates/bor
`fetch_state_sync_events` issues a single request and returns only the
first page, whereas the root-crate implementation issues a second request
with `from_id` advanced by the page size (1 + 50 = 51) and returns the
concatenation, as the claim describes. -/
theorem fetch_state_sync_events_pagination_divergence :
    HeimdallClient.fetchStateSyncEvents srvPaged 1 999 = .ok fullPage ∧
    libFetchStateSyncEvents srvPaged 3 1 =
      some ([1, 51], .ok (fullPage ++ [mkEv 51])) ∧
    fullPage.length = STATE_FETCH_LIMIT ∧
    (1 : Nat) + STATE_FETCH_LIMIT = 51 ∧
    mkEv 51 ∉ fullPage := by
  refine ⟨by decide, by decide, by decide, by decide, by decide⟩

/-- C6 counterexample: in the table `{0 ↦ 0}` the key 0 qualifies for block
0, yet `sprint_number` returns an error — refuting "errors iff no key ≤ b
exists". -/
theorem sprint_number_error_despite_qualifying_key :
    (((0 : Nat), (0 : Nat)) ∈ [((0 : Nat), (0 : Nat))] ∧ (0 : Nat) ≤ 0) ∧
    sprintNumber [(0, 0)] 0 = .error "Sprint not found for block" := by
  exact ⟨⟨by decide, by decide⟩, rfl⟩

/-- C7: the source's uncle-hash check compares against `keccak256(&[])`,
the hash of the empty *byte string*, which differs from the canonical hash
of the empty ommers *list* (keccak of the RLP byte `0xc0`).  A header
carrying the canonical empty-list hash — and passing every earlier check —
is rejected with "invalid uncle hash", while a header carrying the
keccak-of-empty-bytes value is accepted. -/
theorem ommers_hash_check_divergence :
    KECCAK256_RLP_EMPTY_LIST ≠ KECCAK256_EMPTY_BYTES ∧
    hdrCanon.ommersHash = KECCAK256_RLP_EMPTY_LIST ∧
    validateBlockPreExecution [(0, 64)] 100 32 65 40 [] hdrCanon =
      some (.error (.other "invalid uncle hash")) ∧
    hdrKEmpty.ommersHash ≠ KECCAK256_RLP_EMPTY_LIST ∧
    validateBlockPreExecution [(0, 64)] 100 32 65 40 [] hdrKEmpty =
      some (.ok ()) := by
  refine ⟨by decide, by decide, by decide, by decide, by decide⟩

/-- C9: a value returned by `sprint_number` is never 0 (the `Ok` branch is
guarded by the zero check), so the modulo taken by `is_sprint_start` is
always by a nonzero divisor: either `is_sprint_start` panics, or it
computes `b % n` for the nonzero `n` that `sprint_number` returned. -/
theorem sprint_number_nonzero_guards_modulo :
    (∀ (t : List (Nat × Nat)) (b v : Nat), sprintNumber t b = .ok v → v ≠ 0) ∧
    (∀ (t : List (Nat × Nat)) (b : Nat),
      isSprintStart t b = none ∨
        ∃ n, n ≠ 0 ∧ sprintNumber t b = .ok n ∧
          isSprintStart t b = some (decide (b % n = 0))) := by
  refine ⟨sprintNumber_ok_ne_zero, ?_⟩
  intro t b
  cases hsn : sprintNumber t b with
  | error e => left; simp [isSprintStart, hsn]
  | ok n =>
    right
    exact ⟨n, sprintNumber_ok_ne_zero t b n hsn, rfl, by simp [isSprintStart, hsn]⟩

/-- C9 witness: at table `{0 ↦ 64}` and block 128 the divisor is 64 ≠ 0 and
`is_sprint_start` evaluates `128 % 64 = 0`. -/
theorem sprint_number_nonzero_guards_modulo_witness :
    sprintNumber [(0, 64)] 128 = .ok 64 ∧ (64 : Nat) ≠ 0 ∧
    isSprintStart [(0, 64)] 128 = some true := by
  have h := sprint_number_nonzero_guards_modulo
  exact ⟨by decide, h.1 [(0, 64)] 128 64 (by decide), by decide⟩

/-- C10: with an empty receipt list, `validate_block_post_execution` takes
the cumulative gas used to be 0 and accepts exactly when the header's
declared `gas_used` is 0. -/
theorem post_execution_empty_receipts_gas (header : HeaderM) :
    ((([] : List ReceiptM).getLast?.map ReceiptM.cumulativeGasUsed).getD 0 = 0) ∧
    (validateBlockPostExecution header [] = .ok () ↔ header.gasUsed = 0) := by
  refine ⟨rfl, ?_⟩
  unfold validateBlockPostExecution
  by_cases h : header.gasUsed = 0
  · simp [h]
  · simp [h]

/-- C10 witness: a header declaring `gas_used = 0` is accepted against an
empty receipt list. -/
theorem post_execution_empty_receipts_gas_witness :
    validateBlockPostExecution hdrCanon [] = .ok () :=
  (post_execution_empty_receipts_gas hdrCanon).2.mpr rfl

/-- A map of `txExec` actions counts no state-sync action. -/
theorem countP_stateSync_map_txExec {Tx : Type} (us : List Tx) :
    (us.map BlockAction.txExec).countP isStateSyncAction = 0 := by
  rw [List.countP_eq_zero]
  intro a ha
  obtain ⟨t, _, rfl⟩ := List.mem_map.mp ha
  simp [isStateSyncAction]

/-- A map of `txExec` actions contains no state-sync action. -/
theorem stateSync_not_mem_map_txExec {Tx : Type} (us : List Tx) :
    BlockAction.stateSync ∉ us.map BlockAction.txExec := by
  intro h
  obtain ⟨t, _, ht⟩ := List.mem_map.mp h
  simp at ht

/-- C2: the trace of `execute_block` is the ordinary transactions (in
order) followed by at most one commit-span and at most one state-sync
action; the state-sync system call appears at most once, only under
`is_sprint_start(block_number) = true`, and — whenever the block executes
to completion — exactly when the block number is a sprint boundary.  It is
always strictly after every ordinary transaction, never interleaved. -/
theorem execute_block_state_sync_gating (σ Tx : Type) (sprint : List (Nat × Nat))
    (blockNumber : Nat) (txStep : σ → Tx → Option σ)
    (commitSpanStep stateSyncStep : σ → Except HeimdallError σ)
    (s : σ) (txs : List Tx) :
    (∃ (us : List Tx) (tail : List (BlockAction Tx)),
      (executeBlock sprint blockNumber txStep commitSpanStep stateSyncStep s txs).1 =
        us.map BlockAction.txExec ++ tail ∧
      (tail = [] ∨ tail = [.commitSpan] ∨ tail = [.commitSpan, .stateSync])) ∧
    ((executeBlock sprint blockNumber txStep commitSpanStep stateSyncStep s
        txs).1.countP isStateSyncAction ≤ 1) ∧
    (BlockAction.stateSync ∈
        (executeBlock sprint blockNumber txStep commitSpanStep stateSyncStep s txs).1 →
      isSprintStart sprint blockNumber = some true) ∧
    ((executeBlock sprint blockNumber txStep commitSpanStep stateSyncStep s
        txs).2.isOk = true →
      (BlockAction.stateSync ∈
          (executeBlock sprint blockNumber txStep commitSpanStep stateSyncStep s txs).1 ↔
        isSprintStart sprint blockNumber = some true)) := by
  obtain ⟨us, hus⟩ := runTxs_trace_txExec txStep s txs
  have hcnt : (us.map BlockAction.txExec).countP isStateSyncAction = 0 :=
    countP_stateSync_map_txExec us
  cases hr : (runTxs txStep s txs).2 with
  | error e =>
    have hE : executeBlock sprint blockNumber txStep commitSpanStep stateSyncStep
        s txs = ((runTxs txStep s txs).1, .error e) := by
      simp [executeBlock, hr]
    rw [hE, hus]
    refine ⟨⟨us, [], by simp, Or.inl rfl⟩, ?_, ?_, ?_⟩
    · simp [hcnt]
    · intro hmem
      exact absurd hmem (stateSync_not_mem_map_txExec us)
    · intro hok
      simp [Except.isOk, Except.toBool] at hok
  | ok s1 =>
    cases hsp : isSprintStart sprint blockNumber with
    | none =>
      have hE : executeBlock sprint blockNumber txStep commitSpanStep stateSyncStep
          s txs = ((runTxs txStep s txs).1, .error .sprintPanic) := by
        simp [executeBlock, hr, hsp]
      rw [hE, hus]
      refine ⟨⟨us, [], by simp, Or.inl rfl⟩, ?_, ?_, ?_⟩
      · simp [hcnt]
      · intro hmem
        exact absurd hmem (stateSync_not_mem_map_txExec us)
      · intro hok
        simp [Except.isOk, Except.toBool] at hok
    | some bb =>
      cases bb with
      | false =>
        have hE : executeBlock sprint blockNumber txStep commitSpanStep
            stateSyncStep s txs = ((runTxs txStep s txs).1, .ok s1) := by
          simp [executeBlock, hr, hsp]
        rw [hE, hus]
        refine ⟨⟨us, [], by simp, Or.inl rfl⟩, ?_, ?_, ?_⟩
        · simp [hcnt]
        · intro hmem
          exact absurd hmem (stateSync_not_mem_map_txExec us)
        · intro _
          constructor
          · intro hmem
            exact absurd hmem (stateSync_not_mem_map_txExec us)
          · intro heq
            simp at heq
      | true =>
        cases hcs : commitSpanStep s1 with
        | error e =>
          have hE : executeBlock sprint blockNumber txStep commitSpanStep
              stateSyncStep s txs =
              ((runTxs txStep s txs).1 ++ [.commitSpan],
                .error (.internal e)) := by
            simp [executeBlock, hr, hsp, hcs]
          rw [hE, hus]
          refine ⟨⟨us, [.commitSpan], rfl, Or.inr (Or.inl rfl)⟩, ?_, ?_, ?_⟩
          · simp [List.countP_append, hcnt, List.countP_cons, isStateSyncAction]
          · intro _
            rfl
          · intro hok
            simp [Except.isOk, Except.toBool] at hok
        | ok s2 =>
          cases hss : stateSyncStep s2 with
          | error e =>
            have hE : executeBlock sprint blockNumber txStep commitSpanStep
                stateSyncStep s txs =
                ((runTxs txStep s txs).1 ++ [.commitSpan, .stateSync],
                  .error (.internal e)) := by
              simp [executeBlock, hr, hsp, hcs, hss]
            rw [hE, hus]
            refine ⟨⟨us, [.commitSpan, .stateSync], rfl,
              Or.inr (Or.inr rfl)⟩, ?_, ?_, ?_⟩
            · simp [List.countP_append, hcnt, List.countP_cons, isStateSyncAction]
            · intro _
              rfl
            · intro hok
              simp [Except.isOk, Except.toBool] at hok
          | ok s3 =>
            have hE : executeBlock sprint blockNumber txStep commitSpanStep
                stateSyncStep s txs =
                ((runTxs txStep s txs).1 ++ [.commitSpan, .stateSync],
                  .ok s3) := by
              simp [executeBlock, hr, hsp, hcs, hss]
            rw [hE, hus]
            refine ⟨⟨us, [.commitSpan, .stateSync], rfl,
              Or.inr (Or.inr rfl)⟩, ?_, ?_, ?_⟩
            · simp [List.countP_append, hcnt, List.countP_cons, isStateSyncAction]
            · intro _
              rfl
            · intro _
              exact ⟨fun _ => rfl, fun _ => by simp⟩

/-- C2 witness: at sprint table `{0 ↦ 64}`, block 64 is a sprint boundary;
with one ordinary transaction and succeeding system steps the block
executes to completion and the state-sync action is in the trace. -/
theorem execute_block_state_sync_gating_witness :
    (@executeBlock Unit Unit [(0, 64)] 64 (fun s _ => some s) (fun s => .ok s)
        (fun s => .ok s) () [()]).2.isOk = true ∧
    (BlockAction.stateSync ∈
        (@executeBlock Unit Unit [(0, 64)] 64 (fun s _ => some s) (fun s => .ok s)
          (fun s => .ok s) () [()]).1 ↔
      isSprintStart [(0, 64)] 64 = some true) := by
  have h := execute_block_state_sync_gating Unit Unit [(0, 64)] 64
    (fun s _ => some s) (fun s => .ok s) (fun s => .ok s) () [()]
  exact ⟨by decide, h.2.2.2 (by decide)⟩

/-- C5: every successful fetch returns exactly the sort, by ascending
wrapped-record id, of the concatenation of the pages produced by the
requests issued (so the result is an id-sorted permutation of what the
checkpoint layer returned across pages); the `Ord` on `EventRecordWithTime`
compares only ids, so records with equal id and different times compare as
equal; and the pages with ids `[5,3,4]` and `[9,6]` sort to
`[3,4,5,6,9]`. -/
theorem fetch_state_sync_events_sorted_by_id :
    (∀ (server : Nat → HeimdallResponse) (fuel fromId : Nat)
      (reqs : List Nat) (out : List EventRecordWithTime),
      libFetchStateSyncEvents server fuel fromId = some (reqs, .ok out) →
      out = sortEvents ((reqs.map fun f => pageEvents (server f)).flatten)) ∧
    (∀ l, (sortEvents l).Pairwise eventLe) ∧
    (∀ l, (sortEvents l).Perm l) ∧
    (∀ a b : EventRecordWithTime, a.eventRecord.id = b.eventRecord.id →
      EventRecordWithTime.cmp a b = .eq) ∧
    sortEvents (pageEvents (.success (some [mkEv 5, mkEv 3, mkEv 4])) ++
        pageEvents (.success (some [mkEv 9, mkEv 6]))) =
      [mkEv 3, mkEv 4, mkEv 5, mkEv 6, mkEv 9] := by
  refine ⟨?_, sortEvents_pairwise, sortEvents_perm, ?_, by decide⟩
  · intro server fuel fromId reqs out h
    obtain ⟨newReqs, hr, hout⟩ :=
      fetchGo_ok_eq_sorted_pages server fuel fromId [] [] reqs out h
    simp only [List.nil_append] at hr hout
    rw [hr]
    simpa using hout
  · intro a b hid
    simp [EventRecordWithTime.cmp, hid, Nat.compare_eq_eq]

/-- C5 witness: a server answering the single short page `[5, 3, 4]`
returns the sorted page `[3, 4, 5]`, which equals the sort of the flattened
pages of the one issued request. -/
theorem fetch_state_sync_events_sorted_by_id_witness :
    libFetchStateSyncEvents srvC5 2 1 = some ([1], .ok [mkEv 3, mkEv 4, mkEv 5]) ∧
    [mkEv 3, mkEv 4, mkEv 5] =
      sortEvents ((([1] : List Nat).map fun f => pageEvents (srvC5 f)).flatten) := by
  have h := fetch_state_sync_events_sorted_by_id
  exact ⟨by decide, h.1 srvC5 2 1 [1] [mkEv 3, mkEv 4, mkEv 5] (by decide)⟩

/-- C6 amended: on a table with strictly ascending keys, `sprint_number`
returns the value associated with the greatest key ≤ `block_number` when
that value is nonzero, and errors exactly when no key qualifies or the
qualifying value is 0; the last qualifying entry is indeed the one with the
greatest qualifying key. -/
theorem sprint_number_greatest_key_lookup (t : List (Nat × Nat)) (b : Nat)
    (hs : (t.map Prod.fst).Pairwise (· < ·)) :
    sprintNumber t b =
      (match (t.filter fun kv => decide (kv.1 ≤ b)).getLast? with
       | some kv =>
         if kv.2 = 0 then Except.error "Sprint not found for block"
         else Except.ok kv.2
       | none => Except.error "Sprint not found for block") ∧
    ∀ kv ∈ t, kv.1 ≤ b →
      ∀ g, (t.filter fun kv => decide (kv.1 ≤ b)).getLast? = some g →
        kv.1 ≤ g.1 := by
  constructor
  · simp only [sprintNumber]
    rw [sprint_foldl_eq_getLast_filter]
    cases hgl : (t.filter fun kv => decide (kv.1 ≤ b)).getLast? with
    | none => simp
    | some kv =>
      by_cases hz : kv.2 = 0 <;> simp [hz]
  · intro kv hkv hle g hg
    have hsub : ((t.filter fun kv => decide (kv.1 ≤ b)).map Prod.fst).Pairwise
        (· < ·) :=
      List.Pairwise.sublist (List.Sublist.map Prod.fst (List.filter_sublist t)) hs
    exact pairwise_key_le_getLast _ hsub kv
      (List.mem_filter.mpr ⟨hkv, by simpa using hle⟩) g hg

/-- C6 witness: the spec's examples, via the amended lookup law: with
`T = {0 ↦ 64, 1000 ↦ 16}` lookup(500) = 64 and lookup(1500) = 16, and with
the empty table lookup errors. -/
theorem sprint_number_greatest_key_lookup_witness :
    (([((0 : Nat), (64 : Nat)), (1000, 16)].map Prod.fst).Pairwise (· < ·)) ∧
    sprintNumber [(0, 64), (1000, 16)] 500 = .ok 64 ∧
    sprintNumber [(0, 64), (1000, 16)] 1500 = .ok 16 ∧
    sprintNumber [] 777 = .error "Sprint not found for block" := by
  have h1 := sprint_number_greatest_key_lookup [(0, 64), (1000, 16)] 500 (by simp)
  have h2 := sprint_number_greatest_key_lookup [(0, 64), (1000, 16)] 1500 (by simp)
  have h3 := sprint_number_greatest_key_lookup [] 777 (by simp)
  exact ⟨by simp, h1.1.trans (by rfl), h2.1.trans (by rfl), h3.1.trans (by rfl)⟩

/-- C8: (a) if the replay of a prefix succeeds and the committing execution
of the next event yields a call error or a non-success result, the replay
of the whole list submits exactly the prefix plus that event — in order,
nothing after it — and returns an error at once; (b) a state-sync failure
makes `execute_block` itself return an error, so block processing reports
failure. -/
theorem state_sync_replay_error_atomicity :
    (∀ (σ : Type) (gc : GenesisContractClient) (evm : EvmModel σ) (s s1 : σ)
      (pre : List EventRecordWithTime) (e : EventRecordWithTime)
      (post : List EventRecordWithTime),
      replayEvents gc evm s pre = (pre, .ok s1) →
      (evm.transactCommit s1
          (getStateSyncTx gc (.commitState e.time e.eventRecord)) = none ∨
        ∃ r s2, evm.transactCommit s1
            (getStateSyncTx gc (.commitState e.time e.eventRecord)) = some (r, s2) ∧
          r.isSuccess = false) →
      ∃ err, replayEvents gc evm s (pre ++ e :: post) = (pre ++ [e], .error err)) ∧
    (∀ (σ Tx : Type) (sprint : List (Nat × Nat)) (n : Nat)
      (txStep : σ → Tx → Option σ) (cs ss : σ → Except HeimdallError σ)
      (s : σ) (txs : List Tx) (s1 s2 : σ) (err : HeimdallError),
      (runTxs txStep s txs).2 = .ok s1 →
      isSprintStart sprint n = some true →
      cs s1 = .ok s2 → ss s2 = .error err →
      (executeBlock sprint n txStep cs ss s txs).2 = .error (.internal err)) := by
  constructor
  · intro σ gc evm s s1 pre e post hpre hfail
    induction pre generalizing s with
    | nil =>
      simp only [replayEvents, Prod.mk.injEq, Except.ok.injEq, true_and] at hpre
      subst hpre
      rcases hfail with hnone | ⟨r, s2, hc, hns⟩
      · exact ⟨.invalidStateSyncData, by
          simp [replayEvents, encodeStateSyncData, hnone]⟩
      · exact ⟨.evmError, by simp [replayEvents, encodeStateSyncData, hc, hns]⟩
    | cons p ps ih =>
      simp only [replayEvents, encodeStateSyncData] at hpre
      cases hcp : evm.transactCommit s
          (getStateSyncTx gc (.commitState p.time p.eventRecord)) with
      | none =>
        rw [hcp] at hpre
        simp at hpre
      | some rs =>
        obtain ⟨r, sNext⟩ := rs
        rw [hcp] at hpre
        simp only [] at hpre
        by_cases hrs : r.isSuccess = true
        · rw [if_pos hrs] at hpre
          simp only [Prod.mk.injEq, List.cons.injEq, true_and] at hpre
          have hrec : replayEvents gc evm sNext ps = (ps, .ok s1) :=
            Prod.ext hpre.1 hpre.2
          obtain ⟨err, herr⟩ := ih sNext hrec
          refine ⟨err, ?_⟩
          simp [replayEvents, encodeStateSyncData, hcp, hrs, herr]
        · rw [if_neg hrs] at hpre
          simp at hpre
  · intro σ Tx sprint n txStep cs ss s txs s1 s2 err h1 h2 h3 h4
    simp [executeBlock, h1, h2, h3, h4]

/-- C8 witness: replaying `[10, 11, 12]` on an EVM where event 11's
`commitState` reverts submits exactly events 10 and 11, in order, and fails
— event 12 is never executed. -/
theorem state_sync_replay_error_atomicity_witness :
    ∃ err, replayEvents gcX evmC8 0 [mkEv 10, mkEv 11, mkEv 12] =
      ([mkEv 10, mkEv 11], .error err) := by
  have h := state_sync_replay_error_atomicity
  exact h.1 Nat gcX evmC8 0 1 [mkEv 10] (mkEv 11) [mkEv 12] (by decide)
    (Or.inr ⟨.revert, 1, by decide, by decide⟩)

end Boreth
